import Mathlib

/-!
Shallow embedding of the OpenRemote deploy scripts (backup.py, restore.py,
deploy.py) and verification of the frozen specification claims.

Python strings manipulated character-by-character (credential extraction)
are modelled as `List Char`; opaque strings (command lines, file names)
are modelled as `String`.  The Docker container is modelled as an abstract
command executor: an oracle assigns an exit code to each issued command and
the state records the sequence of commands issued, so that ordering
properties are about the recorded trace.
-/

namespace OpenRemote

/-- Character-list model of a Python string, for the code that inspects
strings character by character. -/
abbrev Str := List Char

/-- Python dict assignment `d[k] = v` on an insertion-ordered association
list: replace the value of an existing key in place, otherwise append. -/
def dictInsert {α β : Type} [DecidableEq α] : List (α × β) → α → β → List (α × β)
  | [], k, v => [(k, v)]
  | (k', v') :: rest, k, v =>
    if k' = k then (k, v) :: rest else (k', v') :: dictInsert rest k v

/-- Python dict lookup `d.get(k)` (association lists built by `dictInsert`
have at most one binding per key, so first match is the binding). -/
def dictGet {α β : Type} [DecidableEq α] : List (α × β) → α → Option β
  | [], _ => none
  | (k', v) :: rest, k => if k' = k then some v else dictGet rest k

theorem dictGet_dictInsert_self {α β : Type} [DecidableEq α]
    (d : List (α × β)) (k : α) (v : β) :
    dictGet (dictInsert d k v) k = some v := by
  induction d with
  | nil => simp [dictInsert, dictGet]
  | cons kv rest ih =>
    obtain ⟨k', v'⟩ := kv
    by_cases h : k' = k
    · simp [dictInsert, dictGet, h]
    · simp [dictInsert, dictGet, h, ih]

theorem dictGet_dictInsert_ne {α β : Type} [DecidableEq α]
    (d : List (α × β)) (k k' : α) (v : β) (h : k ≠ k') :
    dictGet (dictInsert d k' v) k = dictGet d k := by
  induction d with
  | nil => simp [dictInsert, dictGet, Ne.symm h]
  | cons kv rest ih =>
    obtain ⟨k₀, v₀⟩ := kv
    by_cases h₀ : k₀ = k'
    · subst h₀
      simp [dictInsert, dictGet, Ne.symm h]
    · by_cases h₁ : k₀ = k
      · simp [dictInsert, dictGet, h₀, h₁, h]
      · simp [dictInsert, dictGet, h₀, h₁, ih]

/-- Python `s.startswith(p)`, on character lists (`leadsWith p s` is
`s.startswith(p)`). -/
def leadsWith : Str → Str → Bool
  | [], _ => true
  | _ :: _, [] => false
  | p :: ps, c :: cs => p = c && leadsWith ps cs

theorem leadsWith_iff (p s : Str) :
    leadsWith p s = true ↔ ∃ t, s = p ++ t := by
  induction p generalizing s with
  | nil => simp [leadsWith]
  | cons a ps ih =>
    cases s with
    | nil => simp [leadsWith]
    | cons c cs =>
      simp only [leadsWith, Bool.and_eq_true, decide_eq_true_eq, ih]
      constructor
      · rintro ⟨rfl, t, rfl⟩
        exact ⟨t, rfl⟩
      · rintro ⟨t, h⟩
        cases h
        exact ⟨rfl, t, rfl⟩

/-- Python `s.split(sep, 1)` when it yields two pieces: `some (before, after)`
splitting at the first occurrence of `sep`; `none` when `sep` is absent
(in which case the Python call yields a single piece). -/
def pySplit1 (sep : Char) : Str → Option (Str × Str)
  | [] => none
  | c :: rest =>
    if c = sep then some ([], rest)
    else (pySplit1 sep rest).map fun p => (c :: p.1, p.2)

theorem pySplit1_eq_none_iff (sep : Char) (s : Str) :
    pySplit1 sep s = none ↔ sep ∉ s := by
  induction s with
  | nil => simp [pySplit1]
  | cons c rest ih =>
    by_cases h : c = sep
    · simp [pySplit1, h]
    · simp [pySplit1, h, ih, Ne.symm h]

theorem pySplit1_spec (sep : Char) (s k v : Str)
    (h : pySplit1 sep s = some (k, v)) : s = k ++ sep :: v ∧ sep ∉ k := by
  induction s generalizing k v with
  | nil => simp [pySplit1] at h
  | cons c rest ih =>
    by_cases hc : c = sep
    · simp only [pySplit1, if_pos hc, Option.some.injEq, Prod.mk.injEq] at h
      obtain ⟨rfl, rfl⟩ := h
      simp [hc]
    · simp only [pySplit1, if_neg hc, Option.map_eq_some'] at h
      obtain ⟨⟨k', v'⟩, hsplit, heq⟩ := h
      obtain ⟨hk, hv⟩ := Prod.mk.injEq .. ▸ heq
      obtain ⟨hs, hmem⟩ := ih k' v' hsplit
      subst hk
      subst hv
      subst hs
      refine ⟨rfl, ?_⟩
      intro hin
      rcases List.mem_cons.mp hin with h' | h'
      · exact hc h'.symm
      · exact hmem h'

theorem pySplit1_isSome_of_mem (sep : Char) (s : Str) (h : sep ∈ s) :
    ∃ kv, pySplit1 sep s = some kv := by
  cases hs : pySplit1 sep s with
  | none => exact absurd h ((pySplit1_eq_none_iff sep s).mp hs)
  | some kv => exact ⟨kv, rfl⟩

/-- Python `s.split(sep)` (no limit): the list of pieces between occurrences
of `sep`; always non-empty, and `[s]` when `sep` is absent. -/
def splitAll (sep : Char) : Str → List Str
  | [] => [[]]
  | c :: rest =>
    if c = sep then [] :: splitAll sep rest
    else (c :: (splitAll sep rest).headD []) :: (splitAll sep rest).tail

theorem splitAll_headD (sep : Char) (s : Str) :
    (splitAll sep s).headD [] = s.takeWhile (fun c => !(c = sep)) := by
  induction s with
  | nil => simp [splitAll]
  | cons c rest ih =>
    by_cases h : c = sep
    · simp [splitAll, h, List.takeWhile]
    · simp only [splitAll, if_neg h, List.headD_cons]
      rw [ih]
      simp [List.takeWhile, h]

theorem splitAll_append_sep (sep : Char) (k v : Str) (hk : sep ∉ k) :
    splitAll sep (k ++ sep :: v) = k :: splitAll sep v := by
  induction k with
  | nil => simp [splitAll]
  | cons a ks ih =>
    have ha : ¬a = sep := fun h => hk (h ▸ List.mem_cons_self a ks)
    have hks : sep ∉ ks := fun h => hk (List.mem_cons_of_mem a h)
    simp [splitAll, ha, ih hks]

theorem getD_zero_eq_headD {α : Type} (l : List α) (d : α) :
    l.getD 0 d = l.headD d := by
  cases l <;> rfl

theorem leadsWith_append_sep (p k t : Str) (c : Char)
    (hp : c ∉ p) (hk : c ∉ k) :
    leadsWith p (k ++ c :: t) = leadsWith p k := by
  induction p generalizing k with
  | nil => rfl
  | cons a ps ih =>
    cases k with
    | nil =>
      have ha : ¬a = c := fun h => hp (h ▸ List.mem_cons_self a ps)
      simp [leadsWith, ha]
    | cons b ks =>
      have hps : c ∉ ps := fun h => hp (List.mem_cons_of_mem a h)
      have hks : c ∉ ks := fun h => hk (List.mem_cons_of_mem b h)
      simp [leadsWith, ih ks hps hks]

/-! ### Credential extraction (backup.py `get_postgres_env_variables`,
restore.py `get_postgres_env`) -/

/-- The fixed key marker `"POSTGRES_"` used to filter environment entries. -/
def postgresKeyStart : Str := "POSTGRES_".data

/-- One iteration of the loop in backup.py `get_postgres_env_variables`:
`if var.startswith("POSTGRES_"): key, value = var.split("=", 1); d[key] = value`.
`none` models the `ValueError` raised when the unpacking of the split of an
entry without `=` fails, which aborts the whole function. -/
def gpevStep (acc : Option (List (Str × Str))) (var : Str) :
    Option (List (Str × Str)) :=
  match acc with
  | none => none
  | some d =>
    if leadsWith postgresKeyStart var then
      match pySplit1 '=' var with
      | some kv => some (dictInsert d kv.1 kv.2)
      | none => none
    else some d

/-- backup.py lines 70–87: build the dict of `POSTGRES_`-prefixed entries,
splitting each on the first `=` (with `maxsplit=1`). -/
def get_postgres_env_variables (envVars : List Str) :
    Option (List (Str × Str)) :=
  envVars.foldl gpevStep (some [])

/-- One entry of the dict comprehension in restore.py `get_postgres_env`:
`{e.split('=')[0]: e.split('=')[1] for e in env_vars if '=' in e and
e.startswith("POSTGRES_")}` — note the split has no limit, so index 1 is
the text between the first and the second `=`. -/
def gpeStep (d : List (Str × Str)) (e : Str) : List (Str × Str) :=
  if '=' ∈ e ∧ leadsWith postgresKeyStart e = true then
    dictInsert d ((splitAll '=' e).getD 0 []) ((splitAll '=' e).getD 1 [])
  else d

/-- restore.py lines 138–140. -/
def get_postgres_env (envVars : List Str) : List (Str × Str) :=
  envVars.foldl gpeStep []

/-- Reference definition following the specification's words: keep exactly
the entries whose key starts with `POSTGRES_`, split at the first `=`, the
whole remainder (which may itself contain `=`) being the value. -/
def firstEqSplitStep (d : List (Str × Str)) (e : Str) : List (Str × Str) :=
  match pySplit1 '=' e with
  | some kv => if leadsWith postgresKeyStart kv.1 then dictInsert d kv.1 kv.2 else d
  | none => d

def firstEqSplitDict (envVars : List Str) : List (Str × Str) :=
  envVars.foldl firstEqSplitStep []

/-- Variant of the reference definition in which the value of each retained
entry is cut off at the next `=` (what restore.py actually computes). -/
def firstEqSplitTruncStep (d : List (Str × Str)) (e : Str) : List (Str × Str) :=
  match pySplit1 '=' e with
  | some kv =>
    if leadsWith postgresKeyStart kv.1 then
      dictInsert d kv.1 (kv.2.takeWhile fun c => !(c = '='))
    else d
  | none => d

def firstEqSplitTruncDict (envVars : List Str) : List (Str × Str) :=
  envVars.foldl firstEqSplitTruncStep []

theorem leadsWith_of_pySplit1 (e k v : Str) (h : pySplit1 '=' e = some (k, v)) :
    leadsWith postgresKeyStart e = leadsWith postgresKeyStart k := by
  obtain ⟨he, hk⟩ := pySplit1_spec '=' e k v h
  subst he
  exact leadsWith_append_sep _ _ _ _ (by decide) hk

theorem gpeStep_eq_truncStep (d : List (Str × Str)) (e : Str) :
    gpeStep d e = firstEqSplitTruncStep d e := by
  cases hs : pySplit1 '=' e with
  | none =>
    have : '=' ∉ e := (pySplit1_eq_none_iff '=' e).mp hs
    simp [gpeStep, firstEqSplitTruncStep, hs, this]
  | some kv =>
    obtain ⟨k, v⟩ := kv
    obtain ⟨he, hknot⟩ := pySplit1_spec '=' e k v hs
    have hmem : '=' ∈ e := by
      subst he; exact List.mem_append_right k (List.mem_cons_self '=' v)
    have hlead := leadsWith_of_pySplit1 e k v hs
    have hsplit : splitAll '=' e = k :: splitAll '=' v := by
      subst he; exact splitAll_append_sep '=' k v hknot
    have h0 : (splitAll '=' e).getD 0 [] = k := by rw [hsplit]; rfl
    have h1 : (splitAll '=' e).getD 1 [] = v.takeWhile fun c => !(c = '=') := by
      rw [hsplit]
      show (splitAll '=' v).getD 0 [] = _
      rw [getD_zero_eq_headD, splitAll_headD]
    by_cases hl : leadsWith postgresKeyStart k = true
    · have hle : leadsWith postgresKeyStart e = true := by rw [hlead]; exact hl
      simp only [gpeStep, firstEqSplitTruncStep, hs,
        if_pos (And.intro hmem hle), if_pos hl, h0, h1]
    · have hle : ¬('=' ∈ e ∧ leadsWith postgresKeyStart e = true) := by
        rintro ⟨-, hx⟩
        exact hl (hlead ▸ hx)
      simp only [gpeStep, firstEqSplitTruncStep, hs, if_neg hle, if_neg hl]

theorem gpev_foldl (envVars : List Str) (d : List (Str × Str))
    (h : ∀ e ∈ envVars, leadsWith postgresKeyStart e = true → '=' ∈ e) :
    envVars.foldl gpevStep (some d) = some (envVars.foldl firstEqSplitStep d) := by
  induction envVars generalizing d with
  | nil => rfl
  | cons e rest ih =>
    have he := h e (List.mem_cons_self e rest)
    have hrest : ∀ e ∈ rest, leadsWith postgresKeyStart e = true → '=' ∈ e :=
      fun x hx => h x (List.mem_cons_of_mem e hx)
    by_cases hl : leadsWith postgresKeyStart e = true
    · obtain ⟨⟨k, v⟩, hs⟩ := pySplit1_isSome_of_mem '=' e (he hl)
      have hlk : leadsWith postgresKeyStart k = true :=
        (leadsWith_of_pySplit1 e k v hs) ▸ hl
      simp only [List.foldl_cons, gpevStep, firstEqSplitStep, hl, if_true, hs, hlk]
      exact ih _ hrest
    · have hl' : leadsWith postgresKeyStart e = false := by
        cases hb : leadsWith postgresKeyStart e
        · rfl
        · exact absurd hb hl
      have hstep : firstEqSplitStep d e = d := by
        cases hs : pySplit1 '=' e with
        | none => simp [firstEqSplitStep, hs]
        | some kv =>
          obtain ⟨k, v⟩ := kv
          have : leadsWith postgresKeyStart k = false :=
            (leadsWith_of_pySplit1 e k v hs) ▸ hl'
          simp [firstEqSplitStep, hs, this]
      simp only [List.foldl_cons, gpevStep, hl', Bool.false_eq_true, if_false, hstep]
      exact ih _ hrest

/-! ### Credential defaults (backup.py main lines 141–143, restore.py main
line 160) -/

/-- The expression `env_vars.get("POSTGRES_DB", "postgres")` in backup.py `main`. -/
def main_dbname (envVars : List (Str × Str)) : Str :=
  (dictGet envVars "POSTGRES_DB".data).getD "postgres".data

/-- The expression `env_vars.get("POSTGRES_USER", "postgres")` in backup.py `main`. -/
def main_user (envVars : List (Str × Str)) : Str :=
  (dictGet envVars "POSTGRES_USER".data).getD "postgres".data

/-- The expression `env_vars.get("POSTGRES_PASSWORD", "")` in backup.py `main`. -/
def main_password (envVars : List (Str × Str)) : Str :=
  (dictGet envVars "POSTGRES_PASSWORD".data).getD []

/-- The expression `env_vars.get("POSTGRES_PASSWORD", "")` in restore.py `main`. -/
def restore_main_password (envVars : List (Str × Str)) : Str :=
  (dictGet envVars "POSTGRES_PASSWORD".data).getD []

/-! ### Claim C3 -/

/-- C3, counterexample: on the single declared environment entry
`POSTGRES_PASSWORD=a=b`, splitting at the first `=` yields the value `a=b`,
but restore.py's `get_postgres_env` returns the value `a`: the value is not
preserved in full, so the claim fails for that extraction variant. -/
theorem c3_extraction_counterexample :
    pySplit1 '=' "POSTGRES_PASSWORD=a=b".data =
      some ("POSTGRES_PASSWORD".data, "a=b".data) ∧
    get_postgres_env ["POSTGRES_PASSWORD=a=b".data] =
      [("POSTGRES_PASSWORD".data, "a".data)] ∧
    "a".data ≠ "a=b".data := by
  refine ⟨by decide, by decide, by decide⟩

/-- C3 (amended): backup.py's `get_postgres_env_variables` returns exactly
the entries whose key starts with `POSTGRES_`, split at the first `=` with
values containing `=` preserved in full (provided every `POSTGRES_`-prefixed
entry contains a `=`; an entry without one makes the Python code raise);
restore.py's `get_postgres_env` retains the same entries and keys but keeps
of each value only the part before the next `=`, truncating values that
contain `=`. -/
theorem c3_extraction_amended (envVars : List Str) :
    ((∀ e ∈ envVars, leadsWith postgresKeyStart e = true → '=' ∈ e) →
      get_postgres_env_variables envVars = some (firstEqSplitDict envVars)) ∧
    get_postgres_env envVars = firstEqSplitTruncDict envVars := by
  constructor
  · intro h
    exact gpev_foldl envVars [] h
  · have hstep : gpeStep = firstEqSplitTruncStep :=
      funext fun d => funext fun e => gpeStep_eq_truncStep d e
    simp only [get_postgres_env, firstEqSplitTruncDict, hstep]

/-- Witness for C3 (amended) at a concrete environment list. -/
theorem c3_extraction_amended_witness :
    get_postgres_env_variables
        ["POSTGRES_DB=demo".data, "PATH=/usr/bin".data, "POSTGRES_PASSWORD=s=1".data] =
      some [("POSTGRES_DB".data, "demo".data),
            ("POSTGRES_PASSWORD".data, "s=1".data)] := by
  have h := (c3_extraction_amended
      ["POSTGRES_DB=demo".data, "PATH=/usr/bin".data, "POSTGRES_PASSWORD=s=1".data]).1
    (by decide)
  exact h.trans (by decide)

/-! ### Claim C6 -/

/-- C6: a missing `POSTGRES_DB` key yields database name `postgres`, a
missing `POSTGRES_USER` key yields user `postgres`, and a missing
`POSTGRES_PASSWORD` key yields the empty password, in both scripts. -/
theorem c6_credential_defaults (d : List (Str × Str)) :
    (dictGet d "POSTGRES_DB".data = none → main_dbname d = "postgres".data) ∧
    (dictGet d "POSTGRES_USER".data = none → main_user d = "postgres".data) ∧
    (dictGet d "POSTGRES_PASSWORD".data = none → main_password d = []) ∧
    (dictGet d "POSTGRES_PASSWORD".data = none → restore_main_password d = []) := by
  refine ⟨fun h => ?_, fun h => ?_, fun h => ?_, fun h => ?_⟩ <;>
    simp [main_dbname, main_user, main_password, restore_main_password, h]

/-- Witness for C6 at the empty credential mapping. -/
theorem c6_credential_defaults_witness :
    main_dbname [] = "postgres".data ∧ main_user [] = "postgres".data ∧
    main_password [] = [] ∧ restore_main_password [] = [] := by
  have h := c6_credential_defaults []
  exact ⟨h.1 rfl, h.2.1 rfl, h.2.2.1 rfl, h.2.2.2 rfl⟩

/-! ### Restore executor (restore.py `restore_database`)

The container is an abstract executor: `oracle n` is the exit code of the
`n`-th command issued, and the state records every issued command with the
environment overlay it was given.  The Python function is straight-line
code, so its embedding threads this state through the same calls in the
same order. -/

/-- Result of `container.exec_run` (demultiplexed output omitted: only the
exit code influences control flow or the claims). -/
structure ExecResult where
  exitCode : Int

structure ContainerState where
  oracle : Nat → Int
  issued : List (String × List (String × String))

/-- The call `container.exec_run(cmd, environment=env, demux=True)`. -/
def execRun (st : ContainerState) (cmd : String)
    (env : List (String × String)) : ExecResult × ContainerState :=
  (⟨st.oracle st.issued.length⟩, ⟨st.oracle, st.issued ++ [(cmd, env)]⟩)

/-- Apostrophe, kept out of literals for hygiene of the generated SQL text. -/
def sq : String := String.singleton (Char.ofNat 39)

/-- The f-string wrapper in restore.py `run_psql`. -/
def psqlCmd (cmd : String) : String :=
  "psql -U postgres -d openremote -c \"" ++ cmd ++ "\""

/-- restore.py `run_psql`. -/
def runPsql (st : ContainerState) (cmd : String)
    (env : List (String × String)) : ExecResult × ContainerState :=
  execRun st (psqlCmd cmd) env

/-- The triple-quoted SQL text in `disconnect_all_connections`. -/
def disconnect_sql : String :=
  "\n        SELECT pg_terminate_backend(pid)\n        FROM pg_stat_activity\n        WHERE datname = "
    ++ sq ++ "openremote" ++ sq ++ " AND pid <> pg_backend_pid();\n    "

/-- restore.py `disconnect_all_connections`: issues the terminate-backends
SQL via `run_psql` with an empty environment (the result is only logged). -/
def disconnect_all_connections (st : ContainerState) : ContainerState :=
  (runPsql st disconnect_sql []).2

/-- Python `os.path.basename` restricted to what the code needs: the part after
the last `/`. -/
def baseName (s : String) : String := (s.splitOn "/").getLastD s

def disconnectCmd : String := psqlCmd disconnect_sql
def dropdbCmd : String := "dropdb openremote"
def createdbCmd : String := "createdb openremote"
def extPostgisCmd : String := psqlCmd "CREATE EXTENSION IF NOT EXISTS postgis;"
def extTimescaledbCmd : String := psqlCmd "CREATE EXTENSION IF NOT EXISTS timescaledb;"
def preRestoreCmd : String := psqlCmd "SELECT timescaledb_pre_restore();"
def postRestoreCmd : String := psqlCmd "SELECT timescaledb_post_restore();"
def pgRestoreCmd (backupFile : String) : String :=
  "pg_restore -Fc --verbose -U postgres -d openremote /tmp/" ++ baseName backupFile

/-- restore.py lines 108–136, step for step; the returned Bool reflects the
final success/failure log message, decided by the pg_restore exit code. -/
def restore_database (st : ContainerState) (backupFile : String)
    (env : List (String × String)) : Bool × ContainerState :=
  let st1 := disconnect_all_connections st
  let dropR := execRun st1 dropdbCmd env
  let createR := execRun dropR.2 createdbCmd env
  let ext1 := runPsql createR.2 "CREATE EXTENSION IF NOT EXISTS postgis;" env
  let ext2 := runPsql ext1.2 "CREATE EXTENSION IF NOT EXISTS timescaledb;" env
  let preR := runPsql ext2.2 "SELECT timescaledb_pre_restore();" env
  let loadR := execRun preR.2 (pgRestoreCmd backupFile) env
  let postR := runPsql loadR.2 "SELECT timescaledb_post_restore();" env
  (loadR.1.exitCode == 0, postR.2)

/-- The sequence of commands a run of `restore_database` issues, starting
from a container that has executed nothing yet. -/
def restoreTrace (oracle : Nat → Int) (backupFile : String)
    (env : List (String × String)) : List String :=
  ((restore_database ⟨oracle, []⟩ backupFile env).2).issued.map Prod.fst

theorem restoreTrace_eq (oracle : Nat → Int) (bf : String)
    (env : List (String × String)) :
    restoreTrace oracle bf env =
      [disconnectCmd, dropdbCmd, createdbCmd, extPostgisCmd,
       extTimescaledbCmd, preRestoreCmd, pgRestoreCmd bf, postRestoreCmd] := rfl

theorem pgRestoreCmd_ne_postRestoreCmd (bf : String) :
    pgRestoreCmd bf ≠ postRestoreCmd := by
  have hR : (pgRestoreCmd bf).data.get? 1 = some 'g' := rfl
  have hP : postRestoreCmd.data.get? 1 = some 's' := rfl
  intro h
  rw [h, hP] at hR
  simp at hR

/-! ### Claim C1 -/

/-- C1: in every execution of `restore_database` (whatever exit code each
command reports), the issued command trace is: terminate-backends first,
then `dropdb`, then `createdb`, then the two `CREATE EXTENSION IF NOT
EXISTS` statements, then `timescaledb_pre_restore`, then `pg_restore`, so
each claimed "strictly before" pair holds at positions 0–7 of the trace of
length 8. -/
theorem c1_restore_ordering (oracle : Nat → Int) (bf : String)
    (env : List (String × String)) :
    (restoreTrace oracle bf env).get? 0 = some disconnectCmd ∧
    (restoreTrace oracle bf env).get? 1 = some dropdbCmd ∧
    (restoreTrace oracle bf env).get? 2 = some createdbCmd ∧
    (restoreTrace oracle bf env).get? 3 = some extPostgisCmd ∧
    (restoreTrace oracle bf env).get? 4 = some extTimescaledbCmd ∧
    (restoreTrace oracle bf env).get? 5 = some preRestoreCmd ∧
    (restoreTrace oracle bf env).get? 6 = some (pgRestoreCmd bf) ∧
    (restoreTrace oracle bf env).get? 7 = some postRestoreCmd ∧
    (restoreTrace oracle bf env).length = 8 :=
  ⟨rfl, rfl, rfl, rfl, rfl, rfl, rfl, rfl, rfl⟩

/-! ### Claim C2 -/

/-- C2: for every exit-code oracle — in particular whether the `pg_restore`
load step (position 6) reports 0 or any non-zero code — the
`timescaledb_post_restore` post-hook command appears exactly once in the
trace, at position 7, directly after the load step: it is never skipped on
the failure path. -/
theorem c2_post_hook_always_runs (oracle : Nat → Int) (bf : String)
    (env : List (String × String)) :
    (restoreTrace oracle bf env).count postRestoreCmd = 1 ∧
    (restoreTrace oracle bf env).get? 6 = some (pgRestoreCmd bf) ∧
    (restoreTrace oracle bf env).get? 7 = some postRestoreCmd := by
  refine ⟨?_, rfl, rfl⟩
  rw [restoreTrace_eq]
  have h1 : ([disconnectCmd, dropdbCmd, createdbCmd, extPostgisCmd,
      extTimescaledbCmd, preRestoreCmd] : List String).count postRestoreCmd = 0 := by
    decide
  have hbeq : (pgRestoreCmd bf == postRestoreCmd) = false :=
    beq_eq_false_iff_ne.mpr (pgRestoreCmd_ne_postRestoreCmd bf)
  rw [show [disconnectCmd, dropdbCmd, createdbCmd, extPostgisCmd,
        extTimescaledbCmd, preRestoreCmd, pgRestoreCmd bf, postRestoreCmd] =
      [disconnectCmd, dropdbCmd, createdbCmd, extPostgisCmd,
        extTimescaledbCmd, preRestoreCmd] ++ [pgRestoreCmd bf, postRestoreCmd]
    from rfl, List.count_append, h1]
  rw [List.count_cons, List.count_cons, List.count_nil, hbeq]
  simp

/-! ### Interactive selection menus (backup.py `display_container_menu`,
restore.py `display_container_menu` / `display_backup_file_menu`)

`inp` models the result of `int(input(...))`: `none` is the `ValueError`
raised on non-numeric input, `some k` a parsed integer. -/

structure Container where
  name : String

/-- backup.py lines 20–41. -/
def backup_display_container_menu (containers : List Container)
    (inp : Option Int) : Option String :=
  if containers.isEmpty then none
  else
    match inp with
    | none => none
    | some sel =>
      if 1 ≤ sel ∧ sel ≤ (containers.length : Int) then
        (containers.get? (sel - 1).toNat).map Container.name
      else none

/-- restore.py lines 43–57 (same selection logic as the backup variant). -/
def restore_display_container_menu (containers : List Container)
    (inp : Option Int) : Option String :=
  if containers.isEmpty then none
  else
    match inp with
    | none => none
    | some sel =>
      if 1 ≤ sel ∧ sel ≤ (containers.length : Int) then
        (containers.get? (sel - 1).toNat).map Container.name
      else none

/-- Python `s.endswith(suf)`. -/
def trailsWith (s suf : String) : Bool :=
  leadsWith suf.data.reverse s.data.reverse

/-- The candidate list of restore.py `display_backup_file_menu`:
`[f for f in os.listdir('.') if f.endswith('.bak')]`, over the directory
listing. -/
def bakCandidates (listing : List String) : List String :=
  listing.filter fun f => trailsWith f ".bak"

/-- restore.py lines 59–74 (`files` is `bakCandidates listing`). -/
def display_backup_file_menu (listing : List String)
    (inp : Option Int) : Option String :=
  if (bakCandidates listing).isEmpty then none
  else
    match inp with
    | none => none
    | some sel =>
      if 1 ≤ sel ∧ sel ≤ ((bakCandidates listing).length : Int) then
        (bakCandidates listing).get? (sel - 1).toNat
      else none

/-- backup.py line 146: the host name of a table-scoped dump,
`f"{str(int(time.time()))}-openremote.sql"`. -/
def backup_file_name (ts : Nat) : String := toString ts ++ "-openremote.sql"

theorem trailsWith_iff (s suf : String) :
    trailsWith s suf = true ↔ ∃ t, s.data = t ++ suf.data := by
  rw [trailsWith, leadsWith_iff]
  constructor
  · rintro ⟨t, h⟩
    refine ⟨t.reverse, ?_⟩
    rw [← List.reverse_reverse s.data, h, List.reverse_append,
      List.reverse_reverse]
  · rintro ⟨t, h⟩
    exact ⟨t.reverse, by rw [h, List.reverse_append]⟩

theorem trailsWith_bak_eq_false_of_sql (s : String)
    (h : trailsWith s ".sql" = true) : trailsWith s ".bak" = false := by
  cases hb : trailsWith s ".bak" with
  | false => rfl
  | true =>
    exfalso
    obtain ⟨t₁, h₁⟩ := (trailsWith_iff s ".sql").mp h
    obtain ⟨t₂, h₂⟩ := (trailsWith_iff s ".bak").mp hb
    have hlen : t₁.length = t₂.length := by
      have := congrArg List.length (h₁.symm.trans h₂)
      simp [List.length_append] at this
      omega
    have := (List.append_inj (h₁.symm.trans h₂) hlen).2
    simp at this

theorem trailsWith_backup_file_name (ts : Nat) :
    trailsWith (backup_file_name ts) ".sql" = true := by
  refine (trailsWith_iff _ _).mpr ⟨(toString ts).data ++ "-openremote".data, ?_⟩
  rw [backup_file_name, String.data_append, List.append_assoc]
  rfl

/-! ### Dump producer (backup.py `backup_postgres_container`) -/

/-- The hard-coded table list of backup.py lines 100–119. -/
def tables : List String :=
  ["openremote.alarm", "openremote.alarm_asset_link", "openremote.asset",
   "openremote.asset_datapoint", "openremote.asset_predicted_datapoint",
   "openremote.asset_ruleset", "openremote.dashboard",
   "openremote.flyway_schema_history", "openremote.gateway_connection",
   "openremote.global_ruleset", "openremote.notification",
   "openremote.provisioning_config", "openremote.realm_ruleset",
   "openremote.spatial_ref_sys", "openremote.syslog_event",
   "openremote.user_asset_link", "topology.layer", "topology.topology"]

/-- The expression `" ".join(...)` over `"-t " + table` for each table. -/
def table_args (tbls : List String) : String :=
  String.intercalate " " (tbls.map fun t => "-t " ++ t)

/-- Observable effects of one run of backup.py `backup_postgres_container`:
the command and environment passed to `exec_run`, and the name and bytes of
the host file it writes.  `archiveChunks` models the chunk stream that
`container.get_archive("/tmp/<file>")` yields: per the container runtime's
interface this is a tar archive of the requested file, and the code writes
each chunk verbatim, so the host file is the concatenation of the chunks. -/
structure BackupEffects where
  dumpCommand : String
  dumpEnv : List (String × String)
  hostFileName : String
  hostFileBytes : List Nat

/-- backup.py lines 44–67. -/
def backup_postgres_container (containerName dbname user password : String)
    (tbls : List String) (backupFile : String)
    (archiveChunks : List (List Nat)) : BackupEffects :=
  { dumpCommand := "pg_dump -U " ++ user ++ " -d " ++ dbname ++ " "
      ++ table_args tbls ++ " -f /tmp/" ++ backupFile
    dumpEnv := [("PGPASSWORD", password)]
    hostFileName := backupFile
    hostFileBytes := archiveChunks.flatten }

/-! ### Stack orchestrator configuration loading (deploy.py
`load_environment_variables`, `generate_secure_password`) -/

/-- Python `string.ascii_letters + string.digits`. -/
def password_alphabet : String :=
  "abcdefghijklmnopqrstuvwxyzABCDEFGHIJKLMNOPQRSTUVWXYZ0123456789"

/-- deploy.py lines 17–20: `secrets.choice(alphabet)` repeated `len` times;
`pick i` is the random draw of round `i`, reduced into the alphabet. -/
def generate_secure_password (pick : Nat → Nat) (len : Nat) : String :=
  String.mk ((List.range len).map fun i =>
    password_alphabet.data.getD (pick i % password_alphabet.data.length) 'a')

/-- Python truthiness of `config.get(key)`: `None` and the empty string are
falsy. -/
def truthy : Option String → Bool
  | none => false
  | some s => !s.isEmpty

/-- The value assigned to `os.environ[key]` in the loop of deploy.py lines
81–87: the configured value, or the generated password when the key is one
of the two password keys and its configured value is blank. -/
def stepVal (orPw kcPw : Option String) (kv : String × String) : String :=
  if kv.1 = "OR_ADMIN_PASSWORD" then
    (if kv.2.isEmpty then orPw.getD "" else kv.2)
  else if kv.1 = "KEYCLOAK_ADMIN_PASSWORD" then
    (if kv.2.isEmpty then kcPw.getD "" else kv.2)
  else kv.2

/-- One iteration of the `for key in config` loop: `os.environ[key] = ...`. -/
def setStep (orPw kcPw : Option String) (env : List (String × String))
    (kv : String × String) : List (String × String) :=
  dictInsert env kv.1 (stepVal orPw kcPw kv)

/-- deploy.py lines 54–96.  `cfg = none` models a missing config file;
`pick1`/`pick2` drive the two potential password generations; `env` is the
process environment `os.environ`.  Returns the new environment and the list
of generated passwords displayed to the operator. -/
def load_environment_variables (cfg : Option (List (String × String)))
    (pick1 pick2 : Nat → Nat) (env : List (String × String)) :
    List (String × String) × List String :=
  match cfg with
  | none => (env, [])
  | some config =>
    let orPw : Option String :=
      if truthy (dictGet config "OR_ADMIN_PASSWORD") then none
      else some (generate_secure_password pick1 16)
    let kcPw : Option String :=
      if truthy (dictGet config "KEYCLOAK_ADMIN_PASSWORD") then none
      else some (generate_secure_password pick2 16)
    (config.foldl (setStep orPw kcPw) env, orPw.toList ++ kcPw.toList)

/-! ### Claim C7 -/

theorem bdcm_input_invalid (cs : List Container) :
    backup_display_container_menu cs none = none := by
  cases cs <;> rfl

theorem rdcm_input_invalid (cs : List Container) :
    restore_display_container_menu cs none = none := by
  cases cs <;> rfl

theorem dbfm_input_invalid (listing : List String) :
    display_backup_file_menu listing none = none := by
  unfold display_backup_file_menu
  cases h : (bakCandidates listing).isEmpty <;> rfl

theorem dbfm_empty (listing : List String) (inp : Option Int)
    (h : bakCandidates listing = []) :
    display_backup_file_menu listing inp = none := by
  unfold display_backup_file_menu
  rw [h]
  rfl

theorem bdcm_out_of_range (cs : List Container) (k : Int)
    (h : k ≤ 0 ∨ (cs.length : Int) < k) :
    backup_display_container_menu cs (some k) = none := by
  cases cs with
  | nil => rfl
  | cons c rest =>
    have hc : ¬(1 ≤ k ∧ k ≤ ((c :: rest).length : Int)) := by
      rcases h with h | h <;> omega
    simp only [backup_display_container_menu, List.isEmpty_cons,
      Bool.false_eq_true, if_false, if_neg hc]

theorem rdcm_out_of_range (cs : List Container) (k : Int)
    (h : k ≤ 0 ∨ (cs.length : Int) < k) :
    restore_display_container_menu cs (some k) = none := by
  cases cs with
  | nil => rfl
  | cons c rest =>
    have hc : ¬(1 ≤ k ∧ k ≤ ((c :: rest).length : Int)) := by
      rcases h with h | h <;> omega
    simp only [restore_display_container_menu, List.isEmpty_cons,
      Bool.false_eq_true, if_false, if_neg hc]

theorem dbfm_out_of_range (listing : List String) (k : Int)
    (h : k ≤ 0 ∨ ((bakCandidates listing).length : Int) < k) :
    display_backup_file_menu listing (some k) = none := by
  have hc : ¬(1 ≤ k ∧ k ≤ ((bakCandidates listing).length : Int)) := by
    rcases h with h | h <;> omega
  unfold display_backup_file_menu
  cases hemp : (bakCandidates listing).isEmpty with
  | true => rfl
  | false => simp only [Bool.false_eq_true, if_false, if_neg hc]

theorem bdcm_valid (cs : List Container) (k : Int)
    (h1 : 1 ≤ k) (h2 : k ≤ (cs.length : Int)) :
    ∃ c, cs.get? (k - 1).toNat = some c ∧
      backup_display_container_menu cs (some k) = some c.name := by
  have hlt : (k - 1).toNat < cs.length := by omega
  refine ⟨cs.get ⟨(k - 1).toNat, hlt⟩, List.get?_eq_get hlt, ?_⟩
  have hemp : cs.isEmpty = false := by
    cases cs with
    | nil => simp at hlt
    | cons c rest => rfl
  simp only [backup_display_container_menu, hemp, Bool.false_eq_true, if_false,
    if_pos (And.intro h1 h2), List.get?_eq_get hlt, Option.map_some']

theorem rdcm_valid (cs : List Container) (k : Int)
    (h1 : 1 ≤ k) (h2 : k ≤ (cs.length : Int)) :
    ∃ c, cs.get? (k - 1).toNat = some c ∧
      restore_display_container_menu cs (some k) = some c.name := by
  have hlt : (k - 1).toNat < cs.length := by omega
  refine ⟨cs.get ⟨(k - 1).toNat, hlt⟩, List.get?_eq_get hlt, ?_⟩
  have hemp : cs.isEmpty = false := by
    cases cs with
    | nil => simp at hlt
    | cons c rest => rfl
  simp only [restore_display_container_menu, hemp, Bool.false_eq_true, if_false,
    if_pos (And.intro h1 h2), List.get?_eq_get hlt, Option.map_some']

theorem dbfm_valid (listing : List String) (k : Int)
    (h1 : 1 ≤ k) (h2 : k ≤ ((bakCandidates listing).length : Int)) :
    ∃ f, (bakCandidates listing).get? (k - 1).toNat = some f ∧
      display_backup_file_menu listing (some k) = some f := by
  have hlt : (k - 1).toNat < (bakCandidates listing).length := by omega
  refine ⟨(bakCandidates listing).get ⟨(k - 1).toNat, hlt⟩,
    List.get?_eq_get hlt, ?_⟩
  have hemp : (bakCandidates listing).isEmpty = false := by
    cases hf : bakCandidates listing with
    | nil => rw [hf] at hlt; simp at hlt
    | cons f rest => rfl
  unfold display_backup_file_menu
  simp only [hemp, Bool.false_eq_true, if_false,
    if_pos (And.intro h1 h2), List.get?_eq_get hlt]

/-- C7: every selection menu returns no selection on an empty candidate
list, on non-numeric input (`inp = none`), and on a selection that is zero,
negative or above the list length; a selection `k` with `1 ≤ k ≤ length`
returns the `(k-1)`-th candidate (the container's name, or the file name). -/
theorem c7_menu_selection (cs : List Container) (listing : List String)
    (k : Int) (inp : Option Int) :
    (backup_display_container_menu [] inp = none) ∧
    (restore_display_container_menu [] inp = none) ∧
    (bakCandidates listing = [] → display_backup_file_menu listing inp = none) ∧
    (backup_display_container_menu cs none = none) ∧
    (restore_display_container_menu cs none = none) ∧
    (display_backup_file_menu listing none = none) ∧
    (k ≤ 0 ∨ (cs.length : Int) < k →
      backup_display_container_menu cs (some k) = none) ∧
    (k ≤ 0 ∨ (cs.length : Int) < k →
      restore_display_container_menu cs (some k) = none) ∧
    (k ≤ 0 ∨ ((bakCandidates listing).length : Int) < k →
      display_backup_file_menu listing (some k) = none) ∧
    (1 ≤ k → k ≤ (cs.length : Int) →
      ∃ c, cs.get? (k - 1).toNat = some c ∧
        backup_display_container_menu cs (some k) = some c.name) ∧
    (1 ≤ k → k ≤ (cs.length : Int) →
      ∃ c, cs.get? (k - 1).toNat = some c ∧
        restore_display_container_menu cs (some k) = some c.name) ∧
    (1 ≤ k → k ≤ ((bakCandidates listing).length : Int) →
      ∃ f, (bakCandidates listing).get? (k - 1).toNat = some f ∧
        display_backup_file_menu listing (some k) = some f) :=
  ⟨rfl, rfl, dbfm_empty listing inp, bdcm_input_invalid cs,
   rdcm_input_invalid cs, dbfm_input_invalid listing,
   bdcm_out_of_range cs k, rdcm_out_of_range cs k, dbfm_out_of_range listing k,
   fun h1 h2 => bdcm_valid cs k h1 h2, fun h1 h2 => rdcm_valid cs k h1 h2,
   fun h1 h2 => dbfm_valid listing k h1 h2⟩

/-- Witness for C7: with two containers, selection 2 returns the second
container's name and selection 3 returns no selection. -/
theorem c7_menu_selection_witness :
    backup_display_container_menu
      [⟨"postgres-a"⟩, ⟨"postgres-b"⟩] (some 2) = some "postgres-b" ∧
    backup_display_container_menu
      [⟨"postgres-a"⟩, ⟨"postgres-b"⟩] (some 3) = none := by
  constructor
  · obtain ⟨c, hc, hm⟩ :=
      (c7_menu_selection [⟨"postgres-a"⟩, ⟨"postgres-b"⟩] [] 2 none).2.2.2.2.2.2.2.2.2.1
        (by decide) (by decide)
    rw [show ([⟨"postgres-a"⟩, ⟨"postgres-b"⟩] : List Container).get? (((2 : Int) - 1).toNat)
        = some ⟨"postgres-b"⟩ from rfl] at hc
    cases hc
    exact hm
  · exact (c7_menu_selection [⟨"postgres-a"⟩, ⟨"postgres-b"⟩] [] 3 none).2.2.2.2.2.2.1
      (by decide)

/-! ### Claim C9 -/

/-- C9: the restore script's interactive file menu offers exactly the
directory entries whose name ends in `.bak`; every selection it returns is
such an entry; and the name the table-scoped dump produces ends in `.sql`,
so it is never offered. -/
theorem c9_menu_offers_only_bak (listing : List String) :
    (∀ f, f ∈ bakCandidates listing ↔
      f ∈ listing ∧ trailsWith f ".bak" = true) ∧
    (∀ inp r, display_backup_file_menu listing inp = some r →
      r ∈ bakCandidates listing) ∧
    (∀ ts : Nat, trailsWith (backup_file_name ts) ".sql" = true ∧
      backup_file_name ts ∉ bakCandidates listing) := by
  refine ⟨fun f => List.mem_filter, fun inp r h => ?_, fun ts => ?_⟩
  · unfold display_backup_file_menu at h
    cases hemp : (bakCandidates listing).isEmpty with
    | true => rw [hemp] at h; simp at h
    | false =>
      rw [hemp] at h
      cases inp with
      | none => simp at h
      | some sel =>
        simp only [Bool.false_eq_true, if_false] at h
        by_cases hc : 1 ≤ sel ∧ sel ≤ ((bakCandidates listing).length : Int)
        · rw [if_pos hc] at h
          exact List.get?_mem h
        · rw [if_neg hc] at h
          exact absurd h (by simp)
  · refine ⟨trailsWith_backup_file_name ts, fun hmem => ?_⟩
    have := (List.mem_filter.mp hmem).2
    rw [trailsWith_bak_eq_false_of_sql _ (trailsWith_backup_file_name ts)] at this
    exact absurd this (by simp)

/-- Witness for C9 at a concrete directory listing. -/
theorem c9_menu_offers_only_bak_witness :
    ("a.bak" ∈ bakCandidates ["a.bak", backup_file_name 17]) ∧
    backup_file_name 17 ∉ bakCandidates ["a.bak", backup_file_name 17] := by
  have h := c9_menu_offers_only_bak ["a.bak", backup_file_name 17]
  exact ⟨(h.1 "a.bak").mpr (by decide), (h.2.2 17).2⟩

/-! ### Claim C8 -/

/-- C8: the dump command string is independent of the password (identical
for any two password values with all other inputs equal), and the password
reaches the tool only as the value of `PGPASSWORD` in the exec
environment. -/
theorem c8_password_only_in_env (cn dbname user p₁ p₂ : String)
    (tbls : List String) (bf : String) (chunks : List (List Nat)) :
    (backup_postgres_container cn dbname user p₁ tbls bf chunks).dumpCommand =
      (backup_postgres_container cn dbname user p₂ tbls bf chunks).dumpCommand ∧
    (backup_postgres_container cn dbname user p₁ tbls bf chunks).dumpEnv =
      [("PGPASSWORD", p₁)] :=
  ⟨rfl, rfl⟩

/-! ### Claim C4 -/

/-- C4, against the code: `backup_postgres_container` writes the chunk
stream of `get_archive` to the host file verbatim.  Whenever that stream is
a tar archive of the dump file — a 512-byte header block, then the content,
then padding — the host file equals the whole tar image and in particular
differs from the raw dump bytes: the tar envelope is NOT removed before
writing, contradicting the claim (and the file's own `.sql`/backup role). -/
theorem c4_host_file_keeps_tar_envelope (cn dbname user password : String)
    (tbls : List String) (bf : String) (chunks : List (List Nat))
    (hdr content pad : List Nat) (hhdr : hdr.length = 512)
    (hstream : chunks.flatten = hdr ++ content ++ pad) :
    (backup_postgres_container cn dbname user password tbls bf chunks).hostFileBytes
        = hdr ++ content ++ pad ∧
    (backup_postgres_container cn dbname user password tbls bf chunks).hostFileBytes
        ≠ content := by
  have hb : (backup_postgres_container cn dbname user password tbls bf
      chunks).hostFileBytes = hdr ++ content ++ pad := hstream
  refine ⟨hb, ?_⟩
  rw [hb]
  intro h
  have := congrArg List.length h
  simp only [List.length_append, hhdr] at this
  omega

/-- Witness for C4: a dump file with content bytes `[97, 98, 99]` inside a
minimal tar image (512-byte header, content, zero padding). -/
theorem c4_host_file_keeps_tar_envelope_witness :
    (backup_postgres_container "or-postgresql-1" "openremote" "postgres" "pw"
        tables "17-openremote.sql"
        [List.replicate 512 0 ++ [97, 98, 99] ++ List.replicate 509 0]).hostFileBytes
      ≠ [97, 98, 99] :=
  (c4_host_file_keeps_tar_envelope "or-postgresql-1" "openremote" "postgres" "pw"
    tables "17-openremote.sql"
    [List.replicate 512 0 ++ [97, 98, 99] ++ List.replicate 509 0]
    (List.replicate 512 0) [97, 98, 99] (List.replicate 509 0)
    (List.length_replicate 512 0)
    (by rw [List.flatten_cons, List.flatten_nil, List.append_nil])).2

/-! ### Claim C10 -/

/-- C10: when the configuration file does not exist,
`load_environment_variables` leaves the process environment exactly as it
was and generates and displays no password. -/
theorem c10_no_config_no_effect (pick1 pick2 : Nat → Nat)
    (env : List (String × String)) :
    load_environment_variables none pick1 pick2 env = (env, []) := rfl

/-! ### Claim C5 -/

theorem dictGet_eq_none {α β : Type} [DecidableEq α]
    (d : List (α × β)) (k : α) (h : k ∉ d.map Prod.fst) :
    dictGet d k = none := by
  induction d with
  | nil => rfl
  | cons kv rest ih =>
    simp only [List.map_cons, List.mem_cons, not_or] at h
    simp [dictGet, Ne.symm h.1, ih h.2]

theorem dictGet_of_mem_nodup {α β : Type} [DecidableEq α]
    (d : List (α × β)) (k : α) (v : β)
    (hmem : (k, v) ∈ d) (hnd : (d.map Prod.fst).Nodup) :
    dictGet d k = some v := by
  induction d with
  | nil => simp at hmem
  | cons kv rest ih =>
    obtain ⟨k₀, v₀⟩ := kv
    simp only [List.map_cons, List.nodup_cons] at hnd
    rcases List.mem_cons.mp hmem with h | h
    · obtain ⟨rfl, rfl⟩ := Prod.mk.injEq .. ▸ h
      simp [dictGet]
    · have hk : k ∈ rest.map Prod.fst := List.mem_map.mpr ⟨(k, v), h, rfl⟩
      have hne : ¬k₀ = k := fun he => hnd.1 (he ▸ hk)
      simp [dictGet, hne, ih h hnd.2]

theorem foldl_setStep_not_mem (o c : Option String) (k : String) :
    ∀ (config env : List (String × String)), k ∉ config.map Prod.fst →
      dictGet (config.foldl (setStep o c) env) k = dictGet env k := by
  intro config
  induction config with
  | nil => intro env _; rfl
  | cons kv rest ih =>
    intro env h
    simp only [List.map_cons, List.mem_cons, not_or] at h
    obtain ⟨hne, hrest⟩ := h
    simp only [List.foldl_cons]
    rw [ih _ hrest, setStep, dictGet_dictInsert_ne env k kv.1 _ hne]

theorem foldl_setStep_mem (o c : Option String) (k : String) :
    ∀ (config env : List (String × String)), k ∈ config.map Prod.fst →
      ∃ w, dictGet (config.foldl (setStep o c) env) k = some w := by
  intro config
  induction config with
  | nil => intro env h; simp at h
  | cons kv rest ih =>
    intro env h
    by_cases hr : k ∈ rest.map Prod.fst
    · simpa only [List.foldl_cons] using ih _ hr
    · have hk : kv.1 = k := by
        simp only [List.map_cons, List.mem_cons] at h
        rcases h with h | h
        · exact h.symm
        · exact absurd h hr
      simp only [List.foldl_cons]
      rw [foldl_setStep_not_mem o c k rest _ hr]
      exact ⟨stepVal o c kv, by rw [setStep, hk, dictGet_dictInsert_self]⟩

theorem foldl_setStep_mem_nodup (o c : Option String) (kv : String × String)
    (config env : List (String × String)) (hmem : kv ∈ config)
    (hnd : (config.map Prod.fst).Nodup) :
    dictGet (config.foldl (setStep o c) env) kv.1 =
      some (stepVal o c kv) := by
  obtain ⟨l₁, l₂, rfl⟩ := List.append_of_mem hmem
  simp only [List.map_append, List.map_cons] at hnd
  have h2 : (kv.1 :: l₂.map Prod.fst).Nodup := (List.nodup_append.mp hnd).2.1
  have hnl2 : kv.1 ∉ l₂.map Prod.fst := (List.nodup_cons.mp h2).1
  rw [List.foldl_append, List.foldl_cons,
    foldl_setStep_not_mem o c kv.1 l₂ _ hnl2, setStep, dictGet_dictInsert_self]

theorem generate_secure_password_length (pick : Nat → Nat) (n : Nat) :
    (generate_secure_password pick n).length = n := by
  show ((List.range n).map fun i =>
    password_alphabet.data.getD (pick i % password_alphabet.data.length) 'a').length = n
  rw [List.length_map, List.length_range]

theorem generate_secure_password_alphanumeric (pick : Nat → Nat) (n : Nat) :
    ∀ ch ∈ (generate_secure_password pick n).data, ch ∈ password_alphabet.data := by
  intro ch hch
  simp only [generate_secure_password, List.mem_map, List.mem_range] at hch
  obtain ⟨i, _, rfl⟩ := hch
  have hlt : pick i % password_alphabet.data.length < password_alphabet.data.length :=
    Nat.mod_lt _ (by decide)
  rw [List.getD_eq_getElem _ _ hlt]
  exact List.getElem_mem hlt

/-- C5, counterexample: with a configuration file holding the empty mapping
(both password keys absent) and an empty initial environment, the code
generates and displays two passwords (two banner values) but sets nothing
in the process environment — `OR_ADMIN_PASSWORD` is not set afterwards,
contradicting the claim that an auto-generated secret is set when the key
is absent from the file. -/
theorem c5_absent_key_not_set_counterexample :
    dictGet (load_environment_variables (some []) (fun _ => 0) (fun _ => 0) []).1
        "OR_ADMIN_PASSWORD" = none ∧
    (load_environment_variables (some []) (fun _ => 0) (fun _ => 0) []).1 = [] ∧
    (load_environment_variables (some []) (fun _ => 0) (fun _ => 0) []).2.length = 2 :=
  ⟨rfl, rfl, rfl⟩

/-- C5 (amended): after `load_environment_variables` on an existing config
file, every key present in the file is set in the process environment; if
`OR_ADMIN_PASSWORD` / `KEYCLOAK_ADMIN_PASSWORD` is present with a blank
value, an auto-generated 16-character alphanumeric secret is set as its
value; but if such a key is absent from the file, the environment is left
unchanged at that key — the generated secret is only displayed, not set. -/
theorem c5_env_loading_amended (config : List (String × String))
    (pick1 pick2 : Nat → Nat) (env : List (String × String))
    (hnd : (config.map Prod.fst).Nodup) :
    (∀ k, k ∈ config.map Prod.fst →
      ∃ w, dictGet (load_environment_variables (some config) pick1 pick2 env).1 k
        = some w) ∧
    (("OR_ADMIN_PASSWORD", "") ∈ config →
      dictGet (load_environment_variables (some config) pick1 pick2 env).1
          "OR_ADMIN_PASSWORD"
        = some (generate_secure_password pick1 16)) ∧
    (("KEYCLOAK_ADMIN_PASSWORD", "") ∈ config →
      dictGet (load_environment_variables (some config) pick1 pick2 env).1
          "KEYCLOAK_ADMIN_PASSWORD"
        = some (generate_secure_password pick2 16)) ∧
    ("OR_ADMIN_PASSWORD" ∉ config.map Prod.fst →
      dictGet (load_environment_variables (some config) pick1 pick2 env).1
          "OR_ADMIN_PASSWORD" = dictGet env "OR_ADMIN_PASSWORD" ∧
      generate_secure_password pick1 16
        ∈ (load_environment_variables (some config) pick1 pick2 env).2) ∧
    ("KEYCLOAK_ADMIN_PASSWORD" ∉ config.map Prod.fst →
      dictGet (load_environment_variables (some config) pick1 pick2 env).1
          "KEYCLOAK_ADMIN_PASSWORD" = dictGet env "KEYCLOAK_ADMIN_PASSWORD" ∧
      generate_secure_password pick2 16
        ∈ (load_environment_variables (some config) pick1 pick2 env).2) ∧
    ((generate_secure_password pick1 16).length = 16 ∧
      ∀ ch ∈ (generate_secure_password pick1 16).data,
        ch ∈ password_alphabet.data) ∧
    ((generate_secure_password pick2 16).length = 16 ∧
      ∀ ch ∈ (generate_secure_password pick2 16).data,
        ch ∈ password_alphabet.data) := by
  refine ⟨?_, ?_, ?_, ?_, ?_,
    ⟨generate_secure_password_length pick1 16,
      generate_secure_password_alphanumeric pick1 16⟩,
    generate_secure_password_length pick2 16,
    generate_secure_password_alphanumeric pick2 16⟩
  · intro k hk
    exact foldl_setStep_mem _ _ k config env hk
  · intro hmem
    have hget : dictGet config "OR_ADMIN_PASSWORD" = some "" :=
      dictGet_of_mem_nodup config _ _ hmem hnd
    have h := foldl_setStep_mem_nodup
      (if truthy (dictGet config "OR_ADMIN_PASSWORD") then none
        else some (generate_secure_password pick1 16))
      (if truthy (dictGet config "KEYCLOAK_ADMIN_PASSWORD") then none
        else some (generate_secure_password pick2 16))
      ("OR_ADMIN_PASSWORD", "") config env hmem hnd
    have hval : stepVal
        (if truthy (dictGet config "OR_ADMIN_PASSWORD") then none
          else some (generate_secure_password pick1 16))
        (if truthy (dictGet config "KEYCLOAK_ADMIN_PASSWORD") then none
          else some (generate_secure_password pick2 16))
        ("OR_ADMIN_PASSWORD", "") = generate_secure_password pick1 16 := by
      rw [hget]
      simp [stepVal, truthy, show ("" : String).isEmpty = true from rfl]
    exact hval ▸ h
  · intro hmem
    have hget : dictGet config "KEYCLOAK_ADMIN_PASSWORD" = some "" :=
      dictGet_of_mem_nodup config _ _ hmem hnd
    have h := foldl_setStep_mem_nodup
      (if truthy (dictGet config "OR_ADMIN_PASSWORD") then none
        else some (generate_secure_password pick1 16))
      (if truthy (dictGet config "KEYCLOAK_ADMIN_PASSWORD") then none
        else some (generate_secure_password pick2 16))
      ("KEYCLOAK_ADMIN_PASSWORD", "") config env hmem hnd
    have hval : stepVal
        (if truthy (dictGet config "OR_ADMIN_PASSWORD") then none
          else some (generate_secure_password pick1 16))
        (if truthy (dictGet config "KEYCLOAK_ADMIN_PASSWORD") then none
          else some (generate_secure_password pick2 16))
        ("KEYCLOAK_ADMIN_PASSWORD", "") = generate_secure_password pick2 16 := by
      rw [hget]
      simp [stepVal, truthy, show ("" : String).isEmpty = true from rfl]
    exact hval ▸ h
  · intro hnot
    constructor
    · exact foldl_setStep_not_mem _ _ _ config env hnot
    · have hget : dictGet config "OR_ADMIN_PASSWORD" = none :=
        dictGet_eq_none config _ hnot
      show generate_secure_password pick1 16 ∈
        ((if truthy (dictGet config "OR_ADMIN_PASSWORD") then none
          else some (generate_secure_password pick1 16)).toList ++ _)
      rw [hget]
      simp [truthy]
  · intro hnot
    constructor
    · exact foldl_setStep_not_mem _ _ _ config env hnot
    · have hget : dictGet config "KEYCLOAK_ADMIN_PASSWORD" = none :=
        dictGet_eq_none config _ hnot
      show generate_secure_password pick2 16 ∈
        (_ ++ (if truthy (dictGet config "KEYCLOAK_ADMIN_PASSWORD") then none
          else some (generate_secure_password pick2 16)).toList)
      rw [hget]
      simp [truthy]

/-- Witness for C5 (amended): a config file with a blank
`OR_ADMIN_PASSWORD` and one ordinary key. -/
theorem c5_env_loading_amended_witness :
    dictGet (load_environment_variables
        (some [("OR_ADMIN_PASSWORD", ""), ("FOO", "bar")])
        (fun _ => 0) (fun _ => 0) []).1 "OR_ADMIN_PASSWORD"
      = some (generate_secure_password (fun _ => 0) 16) := by
  have h := c5_env_loading_amended [("OR_ADMIN_PASSWORD", ""), ("FOO", "bar")]
    (fun _ => 0) (fun _ => 0) [] (by decide)
  exact h.2.1 (by decide)

end OpenRemote
